import Mathlib

/-!
The kakuremichi gateway: route table, certificate policy and request dispatch.

A shallow embedding of `gateway/internal/proxy/types.go` and
`gateway/internal/proxy/http.go`, followed by the properties proved about it.

Go maps are kept as association lists with one entry per key; methods with a
pointer receiver return the receiver next to their result. The library code that
runs between the listener and the backend is part of the embedding where it
decides what a request receives: the dispatch of `http.ServeMux`, the
`Director` of `httputil.NewSingleHostReverseProxy` and the header pipeline of
`ReverseProxy.ServeHTTP`. Three library parsers (`url.Parse`,
`net.SplitHostPort` and the escaped branch of `joinURLPath`) are parameters
collected in `Stdlib`.
-/

namespace Kakuremichi

/-! ## Go maps with string keys -/

/-- A Go `map[string]V`: an association list. `GoMap.set` keeps one entry per key. -/
abbrev GoMap (V : Type) := List (String × V)

namespace GoMap

/-- The read `v, exists := m[key]`: `some v` when the key exists. -/
def lookup {V : Type} : GoMap V → String → Option V
  | [], _ => none
  | (k, v) :: m, key => if k = key then some v else lookup m key

/-- Removal of every entry stored under `key`. -/
def erase {V : Type} : GoMap V → String → GoMap V
  | [], _ => []
  | (k, v) :: m, key => if k = key then erase m key else (k, v) :: erase m key

/-- The assignment `m[key] = v`: the entry of `key` is replaced. -/
def set {V : Type} (m : GoMap V) (key : String) (v : V) : GoMap V :=
  (key, v) :: erase m key

/-- The keys of the map, in storage order. -/
def keys {V : Type} (m : GoMap V) : List String := m.map Prod.fst

end GoMap

/-! ## types.go -/

/-- The struct `TunnelRoute`. -/
structure TunnelRoute where
  ID : String
  Domain : String
  AgentIP : String
  Enabled : Bool
deriving DecidableEq, Repr

/-- The struct `ACMEConfig`. -/
structure ACMEConfig where
  Email : String
  Staging : Bool
  CacheDir : String
  Enabled : Bool
deriving DecidableEq, Repr

/-- The struct `HTTPProxy`. `acmeManager` records whether the pointer is non-nil;
the two `*http.Server` handles play no part in routing and are left out. -/
structure HTTPProxy where
  routes : GoMap TunnelRoute
  httpAddr : String
  httpsAddr : String
  acmeManager : Bool
  acmeConfig : ACMEConfig
deriving DecidableEq, Repr

/-! ## http.go: the route table -/

/-- One iteration of the loop of `UpdateRoutes`: an enabled route is stored
under its domain, a disabled one is skipped. -/
def updateStep (newRoutes : GoMap TunnelRoute) (route : TunnelRoute) : GoMap TunnelRoute :=
  if route.Enabled then GoMap.set newRoutes route.Domain route else newRoutes

/-- `UpdateRoutes`: a fresh map is filled from the slice in index order and
then assigned to `p.routes`. The Go map stores pointers into the slice; the
embedding stores the routes as the slice holds them at the call. -/
def UpdateRoutes (p : HTTPProxy) (routes : List TunnelRoute) : HTTPProxy :=
  { p with routes := routes.foldl updateStep [] }

/-- The entries of a route list that are enabled and carry the domain `d`. -/
def enabledFor (routes : List TunnelRoute) (d : String) : List TunnelRoute :=
  routes.filter (fun r => r.Enabled && decide (r.Domain = d))

/-! ## net/http headers -/

/-- The token bytes of a header field name (`validHeaderFieldByte` of net/textproto):
letters, digits and the fifteen punctuation marks of RFC 7230, given by code point. -/
def validHeaderFieldByte (c : Char) : Bool :=
  c.isAlphanum || [33, 35, 36, 37, 38, 39, 42, 43, 45, 46, 94, 95, 96, 124, 126].contains c.toNat

/-- The rewriting loop of net/textproto's `canonicalMIMEHeaderKey`: the first
letter and every letter after a hyphen in upper case, the other letters in
lower case. -/
def canonicalLoop : Bool → List Char → List Char
  | _, [] => []
  | upper, c :: cs =>
    let c2 := if upper && c.isLower then c.toUpper
              else if !upper && c.isUpper then c.toLower else c
    c2 :: canonicalLoop (c2 == '-') cs

/-- The library function `textproto.CanonicalMIMEHeaderKey`: a key made of
token bytes is put in canonical form, any other key is returned as it is. -/
def CanonicalMIMEHeaderKey (s : String) : String :=
  if s.data.all validHeaderFieldByte then String.mk (canonicalLoop true s.data) else s

/-- The type `http.Header`, a `map[string][]string`. -/
abbrev Header := GoMap (List String)

/-- The method `Header.Get`: the first value stored under the canonical key, or `""`. -/
def Header.Get (h : Header) (key : String) : String :=
  match GoMap.lookup h (CanonicalMIMEHeaderKey key) with
  | some (v :: _) => v
  | _ => ""

/-- The method `Header.Set`: the values of the canonical key become `[value]`. -/
def Header.Set (h : Header) (key value : String) : Header :=
  GoMap.set h (CanonicalMIMEHeaderKey key) [value]


/-- The method `Header.Del`: the canonical key is removed. -/
def Header.Del (h : Header) (key : String) : Header :=
  GoMap.erase h (CanonicalMIMEHeaderKey key)

/-- The index expression `h[key]` on a header: the values stored under the
literal key, none when the key is absent. -/
def Header.values (h : Header) (key : String) : List String :=
  (GoMap.lookup h key).getD []

/-! ## Strings -/

/-- The pieces of a string between occurrences of `sep` (`strings.Split`). -/
def splitOnByte (sep : Char) : List Char → List (List Char)
  | [] => [[]]
  | c :: cs =>
    if c = sep then [] :: splitOnByte sep cs
    else
      match splitOnByte sep cs with
      | [] => [[c]]
      | x :: xs => (c :: x) :: xs

/-- Removal of the leading and trailing characters that satisfy `f`. -/
def trimBoth (f : Char → Bool) (s : List Char) : List Char :=
  ((s.dropWhile f).reverse.dropWhile f).reverse

/-- The library function `textproto.TrimString`: space, tab, line feed and
carriage return are trimmed. -/
def TrimString (s : List Char) : List Char :=
  trimBoth (fun c => c.toNat == 32 || c.toNat == 9 || c.toNat == 10 || c.toNat == 13) s

/-- The helper `trimOWS` of httpguts: space and tab are trimmed. -/
def trimOWS (s : List Char) : List Char :=
  trimBoth (fun c => c.toNat == 32 || c.toNat == 9) s

/-- The helper `tokenEqual` of httpguts: equality of ASCII tokens without
regard to case; a token with a byte outside ASCII equals nothing. -/
def tokenEqual (t1 t2 : List Char) : Bool :=
  t1.length == t2.length &&
    (List.zip t1 t2).all (fun ab => decide (ab.1.toNat < 128) && ab.1.toLower == ab.2.toLower)

/-- The library function `httpguts.HeaderValuesContainsToken`. -/
def HeaderValuesContainsToken (values : List String) (token : String) : Bool :=
  values.any (fun v =>
    (splitOnByte ',' v.data).any (fun part => tokenEqual (trimOWS part) token.data))

/-- The test `ascii.IsPrint`: every byte lies between space and tilde. -/
def IsPrint (s : String) : Bool :=
  s.data.all (fun c => decide (32 ≤ c.toNat) && decide (c.toNat ≤ 126))

/-- `strings.HasPrefix`, to which `filepath.HasPrefix` amounts on Unix. -/
def HasPrefix (s pre : String) : Bool := List.isPrefixOf pre.data s.data

/-- The helper `singleJoiningSlash` of net/http/httputil. -/
def singleJoiningSlash (a b : String) : String :=
  let aslash := a.data.getLast? == some '/'
  let bslash := b.data.head? == some '/'
  if aslash && bslash then a ++ String.mk (b.data.drop 1)
  else if !aslash && !bslash then a ++ "/" ++ b
  else a ++ b

/-! ## Requests, responses and the library parsers -/

/-- The fields of `url.URL` that the proxy and the library read or write. -/
structure URL where
  Scheme : String
  Host : String
  Path : String
  RawPath : String
  RawQuery : String
deriving DecidableEq, Repr

/-- The fields of `http.Request` that the proxy and the library read or write.
`TLS` records whether `r.TLS` is non-nil. A list of header values is never
Go's nil slice. -/
structure Request where
  Method : String
  RequestURI : String
  Host : String
  URL : URL
  Header : Header
  TLS : Bool
  RemoteAddr : String
deriving DecidableEq, Repr

/-- What a request receives. `httpError body code` is `http.Error(w, body, code)`;
`writeHeader code` is `w.WriteHeader(code)` with no body;
`redirect target code` is `http.Redirect(w, r, target, code)`, whose Location is
`target` with the bytes outside ASCII percent-escaped;
`redirectURL u code` is the mux's `RedirectHandler(u.String(), code)`, a
redirect to the path and query of `u` on the same scheme and host;
`acmeChallenge` is the ACME manager's HTTP-01 handler serving the request;
`proxied target outreq` is the reverse proxy built for `target` handing
`outreq` to its transport, which sends it to `outreq.URL.Host` and relays the
answer, or calls the `ErrorHandler` when the backend cannot be reached. -/
inductive Response where
  | httpError (body : String) (code : Nat)
  | writeHeader (code : Nat)
  | redirect (target : String) (code : Nat)
  | redirectURL (u : URL) (code : Nat)
  | acmeChallenge
  | proxied (target : URL) (outreq : Request)
deriving DecidableEq, Repr

/-- The library parsers whose code is outside the repository: `url.Parse`
(`none` for a non-nil error), `net.SplitHostPort` (host and port, `none` for a
non-nil error) and the branch of `joinURLPath` that works on escaped paths. -/
structure Stdlib where
  urlParse : String → Option URL
  splitHostPort : String → Option (String × String)
  joinEscapedPath : URL → URL → String × String

deriving instance DecidableEq for Except

/-- The status codes named in http.go and by the mux. -/
def StatusMovedPermanently : Nat := 301
def StatusBadRequest : Nat := 400
def StatusNotFound : Nat := 404
def StatusInternalServerError : Nat := 500
def StatusBadGateway : Nat := 502
def StatusServiceUnavailable : Nat := 503

/-- The pattern under which the ACME HTTP-01 handler is mounted. -/
def acmeChallengePath : String := "/.well-known/acme-challenge/"

/-! ## net/http/httputil: the reverse proxy -/

/-- The helper `joinURLPath`: path and raw path of the outgoing URL. -/
def joinURLPath (lib : Stdlib) (a b : URL) : String × String :=
  if a.RawPath = "" ∧ b.RawPath = "" then (singleJoiningSlash a.Path b.Path, "")
  else lib.joinEscapedPath a b

/-- The helper `rewriteRequestURL`, the `Director` that
`NewSingleHostReverseProxy(target)` installs: the outgoing URL takes the scheme
and the host of the target, the paths are joined and the queries merged. -/
def rewriteRequestURL (lib : Stdlib) (target : URL) (req : Request) : Request :=
  { req with URL :=
      { Scheme := target.Scheme
        Host := target.Host
        Path := (joinURLPath lib target req.URL).1
        RawPath := (joinURLPath lib target req.URL).2
        RawQuery :=
          if target.RawQuery = "" ∨ req.URL.RawQuery = "" then target.RawQuery ++ req.URL.RawQuery
          else target.RawQuery ++ "&" ++ req.URL.RawQuery } }

/-- The helper `upgradeType`: the value of Upgrade when Connection holds the
token `Upgrade`, the empty string otherwise. -/
def upgradeType (h : Header) : String :=
  if HeaderValuesContainsToken (Header.values h "Connection") "Upgrade" then
    Header.Get h "Upgrade"
  else ""

/-- The header names listed in the values of Connection, trimmed, the empty
ones left out. -/
def connectionTokens (h : Header) : List String :=
  (Header.values h "Connection").foldr
    (fun f acc =>
      (((splitOnByte ',' f.data).map TrimString).filter (fun sf => sf != [])).map String.mk
        ++ acc) []

/-- The table `hopHeaders` of the reverse proxy. -/
def hopHeaders : List String :=
  ["Connection", "Proxy-Connection", "Keep-Alive", "Proxy-Authenticate",
   "Proxy-Authorization", "Te", "Trailer", "Transfer-Encoding", "Upgrade"]

/-- The helper `removeHopByHopHeaders`: the headers named in Connection are
deleted, then the headers of the table `hopHeaders`. -/
def removeHopByHopHeaders (h : Header) : Header :=
  hopHeaders.foldl Header.Del ((connectionTokens h).foldl Header.Del h)

/-- The header of the outgoing request after `ReverseProxy.ServeHTTP` has
worked on what the `Director` left: hop-by-hop headers are removed, `Te:
trailers` and the upgrade headers are put back, the client address is appended
to X-Forwarded-For, and an absent User-Agent is set to the empty string. `r` is
the inbound request, `h` the header the `Director` left. -/
def outgoingHeader (lib : Stdlib) (r : Request) (h : Header) : Header :=
  let reqUpType := upgradeType h
  let h := removeHopByHopHeaders h
  let h := if HeaderValuesContainsToken (Header.values r.Header "Te") "trailers" then
      Header.Set h "Te" "trailers" else h
  let h := if reqUpType ≠ "" then
      Header.Set (Header.Set h "Connection" "Upgrade") "Upgrade" reqUpType else h
  let h := match lib.splitHostPort r.RemoteAddr with
    | some hostPort =>
      let prior := Header.values h "X-Forwarded-For"
      Header.Set h "X-Forwarded-For"
        (if prior ≠ [] then String.intercalate ", " prior ++ ", " ++ hostPort.1
         else hostPort.1)
    | none => h
  if (GoMap.lookup h "User-Agent").isNone then Header.Set h "User-Agent" "" else h

/-- The method `ReverseProxy.ServeHTTP` for a proxy with the given `Director`
and `ErrorHandler`: the clone of the request goes through the `Director`; a
request that asks to switch to a protocol whose name is not printable goes to
the `ErrorHandler`; any other request is handed to the transport with the
header of `outgoingHeader`. -/
def ReverseProxyServeHTTP (lib : Stdlib) (target : URL) (director : Request → Request)
    (errorHandler : Response) (r : Request) : Response :=
  let outreq := director r
  if IsPrint (upgradeType outreq.Header) then
    Response.proxied target { outreq with Header := outgoingHeader lib r outreq.Header }
  else errorHandler

/-- Whether the values of Connection in `h` name the header `key`. -/
def namedInConnection (h : Header) (key : String) : Bool :=
  ((connectionTokens h).map CanonicalMIMEHeaderKey).contains (CanonicalMIMEHeaderKey key)

/-! ## net/http: the mux -/

/-- The segments of a rooted path after `path.Clean`: empty segments and `.`
are dropped, `..` removes the segment before it. `acc` holds the kept segments,
the last one first. -/
def cleanSegments : List (List Char) → List (List Char) → List (List Char)
  | acc, [] => acc.reverse
  | acc, seg :: rest =>
    if seg = [] ∨ seg = ['.'] then cleanSegments acc rest
    else if seg = ['.', '.'] then cleanSegments (acc.drop 1) rest
    else cleanSegments (seg :: acc) rest

/-- The library function `path.Clean` on a rooted path. -/
def pathClean (p : String) : String :=
  String.mk ('/' :: List.intercalate ['/'] (cleanSegments [] (splitOnByte '/' p.data)))

/-- The helper `cleanPath` of the mux: the canonical form of a request path,
rooted, without `.`, `..` or doubled slashes, a trailing slash kept. -/
def cleanPath (p : String) : String :=
  if p = "" then "/"
  else
    let p := if p.data.head? = some '/' then p else "/" ++ p
    let np := pathClean p
    if p.data.getLast? = some '/' ∧ np ≠ "/" then np ++ "/" else np

/-- The helper `stripHostPort` of the mux. -/
def stripHostPort (lib : Stdlib) (h : String) : String :=
  if h.data.contains ':' then
    match lib.splitHostPort h with
    | some hostPort => hostPort.1
    | none => h
  else h

/-- The test `shouldRedirectRLocked` of the mux: the path is not registered but
the path followed by a slash is. -/
def shouldRedirect (patterns : List String) (host path : String) : Bool :=
  if patterns.contains path || patterns.contains (host ++ path) then false
  else if path = "" then false
  else if patterns.contains (path ++ "/") || patterns.contains (host ++ path ++ "/") then
    path.data.getLast? != some '/'
  else false

/-- The methods `ServeMux.ServeHTTP` and `ServeMux.Handler` for patterns that
name no host, the path taken from `r.URL.Path`: the request `*` is answered 400;
a path that is a registered subtree without its trailing slash is redirected to
the subtree; a path that is not in canonical form is redirected to its
canonical form, except for CONNECT; any other request is dispatched on its
path by `dispatch`. -/
def ServeMux (lib : Stdlib) (patterns : List String) (dispatch : String → Response × HTTPProxy)
    (p : HTTPProxy) (r : Request) : Response × HTTPProxy :=
  if r.RequestURI = "*" then (Response.writeHeader StatusBadRequest, p)
  else if r.Method = "CONNECT" then
    if shouldRedirect patterns r.URL.Host r.URL.Path then
      (Response.redirectURL
        { Scheme := "", Host := "", Path := r.URL.Path ++ "/", RawPath := "",
          RawQuery := r.URL.RawQuery } StatusMovedPermanently, p)
    else dispatch r.URL.Path
  else
    let host := stripHostPort lib r.Host
    let path := cleanPath r.URL.Path
    if shouldRedirect patterns host path then
      (Response.redirectURL
        { Scheme := "", Host := "", Path := path ++ "/", RawPath := "",
          RawQuery := r.URL.RawQuery } StatusMovedPermanently, p)
    else if path ≠ r.URL.Path then
      (Response.redirectURL
        { Scheme := "", Host := "", Path := path, RawPath := "",
          RawQuery := r.URL.RawQuery } StatusMovedPermanently, p)
    else dispatch r.URL.Path

/-! ## http.go: certificate policy, listeners and dispatch -/

/-- The `HostPolicy` closure installed by `initACMEManager`: `nil` for a host
with an enabled route, the error `acme: domain not configured: <host>`
otherwise. The proxy is returned as the call leaves it. -/
def HostPolicy (p : HTTPProxy) (host : String) : Except String Unit × HTTPProxy :=
  match GoMap.lookup p.routes host with
  | some route =>
    if route.Enabled then (Except.ok (), p)
    else (Except.error ("acme: domain not configured: " ++ host), p)
  | none => (Except.error ("acme: domain not configured: " ++ host), p)

/-- The `proxy.Director` closure of `handleRequest`; `originalDirector`, `host`
and the inbound request `r` are its captured variables, `req` is the outgoing
request it rewrites. -/
def Director (originalDirector : Request → Request) (host : String) (r : Request)
    (req : Request) : Request :=
  let req := originalDirector req
  let req := { req with Host := host }
  let req := { req with Header := Header.Set req.Header "X-Forwarded-Host" host }
  let proto := if r.TLS then "https" else "http"
  let req := { req with Header := Header.Set req.Header "X-Forwarded-Proto" proto }
  if Header.Get r.Header "X-Real-IP" = "" then
    if r.RemoteAddr ≠ "" then
      { req with Header := Header.Set req.Header "X-Real-IP" r.RemoteAddr }
    else req
  else req

/-- The method `handleRequest`. The reverse proxy is built for the parsed
target with the `Director` above and an `ErrorHandler` that answers 502; its
`ServeHTTP` receives the request. -/
def handleRequest (lib : Stdlib) (p : HTTPProxy) (r : Request) : Response × HTTPProxy :=
  let host := r.Host
  match GoMap.lookup p.routes host with
  | none => (Response.httpError "No tunnel configured for this domain" StatusNotFound, p)
  | some route =>
    if !route.Enabled then
      (Response.httpError "Tunnel is disabled" StatusServiceUnavailable, p)
    else
      match lib.urlParse ("http://" ++ route.AgentIP ++ ":80") with
      | none =>
        (Response.httpError "Invalid target configuration" StatusInternalServerError, p)
      | some targetURL =>
        (ReverseProxyServeHTTP lib targetURL
          (Director (rewriteRequestURL lib targetURL) host r)
          (Response.httpError "Bad Gateway" StatusBadGateway) r, p)

/-- The request that `handleRequest` hands to the transport for the target `t`:
the clone of `r` after the `Director` and the header pipeline of `ServeHTTP`. -/
def forwardedRequest (lib : Stdlib) (t : URL) (r : Request) : Request :=
  { Director (rewriteRequestURL lib t) r.Host r r with
    Header := outgoingHeader lib r (Director (rewriteRequestURL lib t) r.Host r r).Header }

/-- The handler registered for the pattern `/` when ACME is enabled. -/
def redirectToHTTPS (p : HTTPProxy) (r : Request) : Response × HTTPProxy :=
  if HasPrefix r.URL.Path acmeChallengePath then (Response.acmeChallenge, p)
  else
    let target := "https://" ++ r.Host ++ r.URL.Path
    let target := if r.URL.RawQuery ≠ "" then target ++ "?" ++ r.URL.RawQuery else target
    (Response.redirect target StatusMovedPermanently, p)

/-- The patterns that `startHTTPServer` registers on the mux. -/
def httpPatterns (p : HTTPProxy) : List String :=
  if p.acmeConfig.Enabled && p.acmeManager then [acmeChallengePath, "/"] else ["/"]

/-- The handler that the mux of `startHTTPServer` selects for a path: the
longest registered pattern that the path starts with; the library's
`NotFoundHandler` when there is none. -/
def httpDispatch (p : HTTPProxy) (mainHandler : HTTPProxy → Request → Response × HTTPProxy)
    (r : Request) (path : String) : Response × HTTPProxy :=
  if p.acmeConfig.Enabled && p.acmeManager then
    if HasPrefix path acmeChallengePath then (Response.acmeChallenge, p)
    else if HasPrefix path "/" then redirectToHTTPS p r
    else (Response.httpError "404 page not found" StatusNotFound, p)
  else
    if HasPrefix path "/" then mainHandler p r
    else (Response.httpError "404 page not found" StatusNotFound, p)

/-- The handler of the HTTP listener: the mux that `startHTTPServer` builds. -/
def httpHandler (lib : Stdlib) (p : HTTPProxy)
    (mainHandler : HTTPProxy → Request → Response × HTTPProxy) (r : Request) :
    Response × HTTPProxy :=
  ServeMux lib (httpPatterns p) (httpDispatch p mainHandler r) p r

/-! ## A reference library for evaluation -/

/-- The test `stringContainsCTLByte` of net/url: a byte below `' '` or `0x7f`. -/
def stringContainsCTLByte (s : String) : Bool :=
  s.data.any (fun c => c.toNat < 32 || c.toNat == 127)

/-- The text after the last colon of a host, when it has a colon. -/
def portOf (host : List Char) : Option (List Char) :=
  match host.reverse.span (fun c => c != ':') with
  | (_, []) => none
  | (revPort, _ :: _) => some revPort.reverse

/-- A partial rendering of `url.Parse`, for evaluating the model on concrete
requests. Like the library it rejects a URL that holds an ASCII control byte.
It accepts `http://host` when `host` is made of letters, digits, `.`, `-` and
`:` and the text after its last colon, if any, is decimal; the result then has
that host and an empty path and query. It rejects everything else, where the
library may accept more. -/
def refParse (rawURL : String) : Option URL :=
  if stringContainsCTLByte rawURL then none
  else
    let host := rawURL.data.drop 7
    if List.isPrefixOf "http://".data rawURL.data
        && host.all (fun c => c.isAlphanum || c == '.' || c == '-' || c == ':')
        && (match portOf host with
            | none => true
            | some port => port.all Char.isDigit) then
      some { Scheme := "http", Host := String.mk host, Path := "", RawPath := "", RawQuery := "" }
    else none

/-- A partial rendering of `net.SplitHostPort`: `host:port` with one colon and
no bracket is split at the colon; anything else is rejected, where the library
also accepts a bracketed host. -/
def refSplitHostPort (hostport : String) : Option (String × String) :=
  match splitOnByte ':' hostport.data with
  | [host, port] =>
    if host.all (fun c => c != '[' && c != ']') then some (String.mk host, String.mk port)
    else none
  | _ => none

/-- The reference library: `refParse`, `refSplitHostPort`, and a raw path that
is left empty. -/
def refStdlib : Stdlib :=
  { urlParse := refParse
    splitHostPort := refSplitHostPort
    joinEscapedPath := fun a b => (singleJoiningSlash a.Path b.Path, "") }

/-- `NewHTTPProxy`: an empty route table and, when ACME is enabled,
`initACMEManager`, which creates the manager unless `os.MkdirAll` fails;
`mkdirOk` tells whether that call succeeds. -/
def NewHTTPProxy (mkdirOk : Bool) (httpAddr httpsAddr : String) (acmeConfig : ACMEConfig) :
    HTTPProxy :=
  { routes := []
    httpAddr := httpAddr
    httpsAddr := httpsAddr
    acmeManager := acmeConfig.Enabled && mkdirOk
    acmeConfig := acmeConfig }

/-- A new proxy on `:80` and `:443`; `acme` tells whether ACME is enabled. -/
def newProxy (acme : Bool) : HTTPProxy :=
  NewHTTPProxy true ":80" ":443"
    { Email := "ops@example.org", Staging := false, CacheDir := "/var/cache/acme", Enabled := acme }

/-! ## Example routes and requests -/

/-- The route of `a.example`, backend A. -/
def routeA : TunnelRoute :=
  { ID := "r-a", Domain := "a.example", AgentIP := "10.1.0.1", Enabled := true }

/-- The route of `b.example`, backend B. -/
def routeB : TunnelRoute :=
  { ID := "r-b", Domain := "b.example", AgentIP := "10.1.0.2", Enabled := true }

/-- An earlier enabled entry for `a.example` with another backend. -/
def routeAOld : TunnelRoute :=
  { ID := "r-a0", Domain := "a.example", AgentIP := "10.1.0.9", Enabled := true }

/-- A disabled entry for `a.example`. -/
def routeAOff : TunnelRoute :=
  { ID := "r-a1", Domain := "a.example", AgentIP := "10.1.0.8", Enabled := false }

/-- An enabled entry whose domain and backend address are both empty. -/
def routeBlank : TunnelRoute :=
  { ID := "r-x", Domain := "", AgentIP := "", Enabled := true }

/-- An enabled entry whose backend address ends in a line feed. -/
def routeBadIP : TunnelRoute :=
  { ID := "r-c", Domain := "c.example", AgentIP := "10.1.0.3\n", Enabled := true }

/-- A GET request over plain HTTP or TLS from the client `192.0.2.1`, port 54321. -/
def requestTo (host path query : String) (hdr : Header) (tls : Bool) : Request :=
  { Method := "GET"
    RequestURI := if query = "" then path else path ++ "?" ++ query
    Host := host
    URL := { Scheme := "", Host := "", Path := path, RawPath := "", RawQuery := query }
    Header := hdr
    TLS := tls
    RemoteAddr := "192.0.2.1:54321" }

/-- A plain-HTTP request for `a.example` that arrives with X-Forwarded-Proto
`https` and X-Forwarded-Host `b.example`. -/
def spoofedRequest : Request :=
  requestTo "a.example" "/" ""
    [("X-Forwarded-Proto", ["https"]), ("X-Forwarded-Host", ["b.example"])] false

/-- A plain-HTTP request for `a.example` whose Connection header names the
three headers that the `Director` writes. -/
def strippingRequest : Request :=
  requestTo "a.example" "/" ""
    [("Connection", ["X-Forwarded-Host, X-Forwarded-Proto, X-Real-IP"])] false

/-- A plain-HTTP request for `a.example` that asks to switch to a protocol
whose name holds a tab. -/
def badUpgradeRequest : Request :=
  requestTo "a.example" "/" "" [("Connection", ["Upgrade"]), ("Upgrade", ["web\tsocket"])] false

/-- The request that reaches the backend of `a.example` for `strippingRequest`:
none of the headers written by the `Director` is left. -/
def strippedForward : Request :=
  { Method := "GET"
    RequestURI := "/"
    Host := "a.example"
    URL := { Scheme := "http", Host := "10.1.0.1:80", Path := "/", RawPath := "", RawQuery := "" }
    Header := [("User-Agent", [""]), ("X-Forwarded-For", ["192.0.2.1"])]
    TLS := false
    RemoteAddr := "192.0.2.1:54321" }

/-- The target that `refParse` returns for the backend of `routeA`. -/
def targetA : URL :=
  { Scheme := "http", Host := "10.1.0.1:80", Path := "", RawPath := "", RawQuery := "" }

/-- The target that `refParse` returns for the backend of `routeB`. -/
def targetB : URL :=
  { Scheme := "http", Host := "10.1.0.2:80", Path := "", RawPath := "", RawQuery := "" }

/-- The proxy after `UpdateRoutes` with the routes of `a.example` and `b.example`. -/
def proxyAB (acme : Bool) : HTTPProxy := UpdateRoutes (newProxy acme) [routeA, routeB]

/-! ## Lemmas on maps -/

namespace GoMap

theorem lookup_erase_self {V : Type} (m : GoMap V) (key : String) :
    lookup (erase m key) key = none := by
  induction m with
  | nil => rfl
  | cons e m ih =>
    obtain ⟨k, v⟩ := e
    by_cases h : k = key
    · simp [erase, h, ih]
    · simp [erase, lookup, h, ih]

theorem lookup_erase_ne {V : Type} (m : GoMap V) {key key2 : String} (h : key ≠ key2) :
    lookup (erase m key) key2 = lookup m key2 := by
  induction m with
  | nil => rfl
  | cons e m ih =>
    obtain ⟨k, v⟩ := e
    by_cases hk : k = key
    · have hk2 : k ≠ key2 := by rw [hk]; exact h
      simp [erase, lookup, hk, ih, h]
    · simp [erase, lookup, hk, ih]

theorem lookup_set_self {V : Type} (m : GoMap V) (key : String) (v : V) :
    lookup (set m key v) key = some v := by
  simp [set, lookup]

theorem lookup_set_ne {V : Type} (m : GoMap V) {key key2 : String} (v : V) (h : key ≠ key2) :
    lookup (set m key v) key2 = lookup m key2 := by
  simp [set, lookup, h, lookup_erase_ne m h]

theorem not_mem_keys_erase {V : Type} (m : GoMap V) (key : String) :
    key ∉ keys (erase m key) := by
  induction m with
  | nil => simp [erase, keys]
  | cons e m ih =>
    obtain ⟨k, v⟩ := e
    by_cases h : k = key
    · simpa [erase, h] using ih
    · simp only [erase, h, if_false, keys, List.map_cons, List.mem_cons, not_or]
      exact ⟨fun hh => h hh.symm, ih⟩

theorem mem_erase {V : Type} (m : GoMap V) (key : String) (e : String × V)
    (h : e ∈ erase m key) : e ∈ m := by
  induction m with
  | nil => simp [erase] at h
  | cons e2 m ih =>
    obtain ⟨k, v⟩ := e2
    by_cases hk : k = key
    · simp only [erase, hk, if_true] at h
      exact List.mem_cons_of_mem _ (ih h)
    · simp only [erase, hk, if_false, List.mem_cons] at h
      rcases h with h | h
      · exact h ▸ List.mem_cons_self _ _
      · exact List.mem_cons_of_mem _ (ih h)

theorem nodup_keys_erase {V : Type} (m : GoMap V) (key : String)
    (h : (keys m).Nodup) : (keys (erase m key)).Nodup := by
  induction m with
  | nil => simp [erase, keys]
  | cons e m ih =>
    obtain ⟨k, v⟩ := e
    simp only [keys, List.map_cons, List.nodup_cons] at h
    by_cases hk : k = key
    · simpa [erase, hk] using ih h.2
    · simp only [erase, hk, if_false, keys, List.map_cons, List.nodup_cons]
      refine ⟨?_, ih h.2⟩
      intro hmem
      obtain ⟨e, he, hek⟩ := List.mem_map.1 hmem
      exact h.1 (List.mem_map.2 ⟨e, mem_erase m key e he, hek⟩)

theorem nodup_keys_set {V : Type} (m : GoMap V) (key : String) (v : V)
    (h : (keys m).Nodup) : (keys (set m key v)).Nodup := by
  simp only [set, keys, List.map_cons, List.nodup_cons]
  exact ⟨not_mem_keys_erase m key, nodup_keys_erase m key h⟩

theorem lookup_of_mem {V : Type} (m : GoMap V) (h : (keys m).Nodup) (k : String) (v : V)
    (hm : (k, v) ∈ m) : lookup m k = some v := by
  induction m with
  | nil => simp at hm
  | cons e m ih =>
    obtain ⟨k2, v2⟩ := e
    simp only [keys, List.map_cons, List.nodup_cons] at h
    simp only [List.mem_cons, Prod.mk.injEq] at hm
    rcases hm with ⟨rfl, rfl⟩ | hm
    · simp [lookup]
    · have hne : k2 ≠ k := by
        intro hk
        exact h.1 (List.mem_map.2 ⟨(k, v), hm, hk.symm⟩)
      simp only [lookup, hne, if_false]
      exact ih h.2 hm

theorem mem_of_lookup {V : Type} (m : GoMap V) (k : String) (v : V)
    (h : lookup m k = some v) : (k, v) ∈ m := by
  induction m with
  | nil => simp [lookup] at h
  | cons e m ih =>
    obtain ⟨k2, v2⟩ := e
    by_cases hk : k2 = k
    · simp only [lookup, hk, if_true, Option.some.injEq] at h
      simp [hk, h]
    · simp only [lookup, hk, if_false] at h
      exact List.mem_cons_of_mem _ (ih h)

end GoMap


/-! ## The table built by `UpdateRoutes` -/

theorem enabledFor_concat (L : List TunnelRoute) (r : TunnelRoute) (d : String) :
    enabledFor (L ++ [r]) d =
      enabledFor L d ++ (if r.Enabled = true ∧ r.Domain = d then [r] else []) := by
  unfold enabledFor
  rw [List.filter_append]
  by_cases h : r.Enabled = true ∧ r.Domain = d
  · simp [List.filter, h]
  · have hb : (r.Enabled && decide (r.Domain = d)) = false := by
      rcases hE : r.Enabled with _ | _
      · simp
      · simp only [Bool.true_and, decide_eq_false_iff_not]
        exact fun hd => h ⟨hE, hd⟩
    simp [List.filter, h, hb]

theorem lookup_foldl_updateStep (L : List TunnelRoute) (d : String) :
    GoMap.lookup (L.foldl updateStep []) d = (enabledFor L d).getLast? := by
  induction L using List.reverseRecOn with
  | nil => rfl
  | append_singleton L r ih =>
    rw [List.foldl_concat, enabledFor_concat]
    by_cases hE : r.Enabled = true
    · by_cases hd : r.Domain = d
      · simp only [updateStep, hE, if_true, hd, and_self, List.getLast?_concat]
        exact GoMap.lookup_set_self _ _ _
      · simp only [updateStep, hE, if_true, hd, and_false, if_false, List.append_nil]
        rw [GoMap.lookup_set_ne _ _ hd, ih]
    · simp only [updateStep, hE, false_and, if_false, List.append_nil, Bool.false_eq_true]
      exact ih

theorem nodup_keys_foldl_updateStep (L : List TunnelRoute) :
    (GoMap.keys (L.foldl updateStep [])).Nodup := by
  induction L using List.reverseRecOn with
  | nil => simp [GoMap.keys]
  | append_singleton L r ih =>
    rw [List.foldl_concat]
    by_cases hE : r.Enabled = true
    · simp only [updateStep, hE, if_true]
      exact GoMap.nodup_keys_set _ _ _ ih
    · simp only [updateStep, hE, if_false, Bool.false_eq_true]
      exact ih

theorem lookup_UpdateRoutes (p : HTTPProxy) (L : List TunnelRoute) (d : String) :
    GoMap.lookup (UpdateRoutes p L).routes d = (enabledFor L d).getLast? :=
  lookup_foldl_updateStep L d

theorem mem_enabledFor {L : List TunnelRoute} {d : String} {r : TunnelRoute} :
    r ∈ enabledFor L d ↔ r ∈ L ∧ r.Enabled = true ∧ r.Domain = d := by
  simp [enabledFor, List.mem_filter]

theorem entry_of_UpdateRoutes (p : HTTPProxy) (L : List TunnelRoute) (k : String)
    (r : TunnelRoute) (h : (k, r) ∈ (UpdateRoutes p L).routes) :
    r ∈ L ∧ r.Enabled = true ∧ r.Domain = k := by
  have hl : GoMap.lookup (UpdateRoutes p L).routes k = some r :=
    GoMap.lookup_of_mem _ (nodup_keys_foldl_updateStep L) k r h
  rw [lookup_UpdateRoutes] at hl
  exact mem_enabledFor.1 (List.mem_of_getLast?_eq_some hl)

theorem enabledFor_getLast?_isSome {L : List TunnelRoute} {e : TunnelRoute}
    (he : e ∈ L) (hE : e.Enabled = true) :
    ∃ route, (enabledFor L e.Domain).getLast? = some route := by
  cases h : (enabledFor L e.Domain).getLast? with
  | some route => exact ⟨route, rfl⟩
  | none =>
    rw [List.getLast?_eq_none_iff] at h
    have : e ∈ enabledFor L e.Domain := mem_enabledFor.2 ⟨he, hE, rfl⟩
    rw [h] at this
    simp at this


/-! ## Headers on the way to the backend -/

theorem Header.Get_Set_self (h : Header) (key value : String) :
    Header.Get (Header.Set h key value) key = value := by
  simp [Header.Get, Header.Set, GoMap.lookup_set_self]

theorem Header.Get_Set_ne (h : Header) (key key2 value : String)
    (hne : CanonicalMIMEHeaderKey key2 ≠ CanonicalMIMEHeaderKey key) :
    Header.Get (Header.Set h key2 value) key = Header.Get h key := by
  simp [Header.Get, Header.Set, GoMap.lookup_set_ne _ _ hne]

theorem key_proto_ne_host :
    CanonicalMIMEHeaderKey "X-Forwarded-Proto" ≠ CanonicalMIMEHeaderKey "X-Forwarded-Host" := by
  decide

theorem key_realip_ne_host :
    CanonicalMIMEHeaderKey "X-Real-IP" ≠ CanonicalMIMEHeaderKey "X-Forwarded-Host" := by
  decide

theorem key_realip_ne_proto :
    CanonicalMIMEHeaderKey "X-Real-IP" ≠ CanonicalMIMEHeaderKey "X-Forwarded-Proto" := by
  decide

theorem lookup_Del (h : Header) (a k : String) :
    GoMap.lookup (Header.Del h a) k =
      if k = CanonicalMIMEHeaderKey a then none else GoMap.lookup h k := by
  by_cases hk : k = CanonicalMIMEHeaderKey a
  · rw [if_pos hk, hk]
    exact GoMap.lookup_erase_self _ _
  · rw [if_neg hk]
    exact GoMap.lookup_erase_ne _ (Ne.symm hk)

theorem lookup_foldl_Del (ks : List String) (h : Header) (k : String) :
    GoMap.lookup (ks.foldl Header.Del h) k =
      if k ∈ ks.map CanonicalMIMEHeaderKey then none else GoMap.lookup h k := by
  induction ks generalizing h with
  | nil => simp
  | cons a ks ih =>
    rw [List.foldl_cons, ih, lookup_Del]
    by_cases h1 : k ∈ ks.map CanonicalMIMEHeaderKey
    · simp [h1]
    · by_cases h2 : k = CanonicalMIMEHeaderKey a
      · simp [h2]
      · simp [h1, h2]

theorem lookup_removeHopByHopHeaders (h : Header) (k : String)
    (hk : k ∉ hopHeaders.map CanonicalMIMEHeaderKey) :
    GoMap.lookup (removeHopByHopHeaders h) k =
      if k ∈ (connectionTokens h).map CanonicalMIMEHeaderKey then none
      else GoMap.lookup h k := by
  unfold removeHopByHopHeaders
  rw [lookup_foldl_Del, if_neg hk, lookup_foldl_Del]

/-- A header that is neither hop-by-hop nor written by `ServeHTTP` reaches the
transport as the `Director` left it, unless Connection names it. -/
theorem lookup_outgoingHeader (lib : Stdlib) (r : Request) (h : Header) (k : String)
    (hk : k ∉ hopHeaders.map CanonicalMIMEHeaderKey)
    (h1 : CanonicalMIMEHeaderKey "Te" ≠ k)
    (h2 : CanonicalMIMEHeaderKey "Connection" ≠ k)
    (h3 : CanonicalMIMEHeaderKey "Upgrade" ≠ k)
    (h4 : CanonicalMIMEHeaderKey "X-Forwarded-For" ≠ k)
    (h5 : CanonicalMIMEHeaderKey "User-Agent" ≠ k) :
    GoMap.lookup (outgoingHeader lib r h) k =
      if k ∈ (connectionTokens h).map CanonicalMIMEHeaderKey then none
      else GoMap.lookup h k := by
  rw [← lookup_removeHopByHopHeaders h k hk]
  unfold outgoingHeader
  simp only [Header.Set]
  cases lib.splitHostPort r.RemoteAddr <;>
    simp only [] <;>
    split_ifs <;>
    simp only [GoMap.lookup_set_ne _ _ h1, GoMap.lookup_set_ne _ _ h2,
      GoMap.lookup_set_ne _ _ h3, GoMap.lookup_set_ne _ _ h4, GoMap.lookup_set_ne _ _ h5]

theorem Director_Host (od : Request → Request) (host : String) (r req : Request) :
    (Director od host r req).Host = host := by
  unfold Director
  simp only []
  split_ifs <;> rfl

theorem Director_URL (od : Request → Request) (host : String) (r req : Request) :
    (Director od host r req).URL = (od req).URL := by
  unfold Director
  simp only []
  split_ifs <;> rfl

theorem Director_Method (od : Request → Request) (host : String) (r req : Request) :
    (Director od host r req).Method = (od req).Method := by
  unfold Director
  simp only []
  split_ifs <;> rfl

/-- The `Director` touches the three headers it writes and no other. -/
theorem Director_lookup_other (od : Request → Request) (host : String) (r req : Request)
    (k : String) (h1 : CanonicalMIMEHeaderKey "X-Forwarded-Host" ≠ k)
    (h2 : CanonicalMIMEHeaderKey "X-Forwarded-Proto" ≠ k)
    (h3 : CanonicalMIMEHeaderKey "X-Real-IP" ≠ k) :
    GoMap.lookup (Director od host r req).Header k = GoMap.lookup (od req).Header k := by
  unfold Director
  simp only [Header.Set]
  split_ifs <;>
    simp only [GoMap.lookup_set_ne _ _ h1, GoMap.lookup_set_ne _ _ h2,
      GoMap.lookup_set_ne _ _ h3]

theorem Director_lookup_forwarded_host (od : Request → Request) (host : String)
    (r req : Request) :
    GoMap.lookup (Director od host r req).Header (CanonicalMIMEHeaderKey "X-Forwarded-Host") =
      some [host] := by
  unfold Director
  simp only [Header.Set]
  split_ifs <;>
    simp only [GoMap.lookup_set_ne _ _ key_realip_ne_host,
      GoMap.lookup_set_ne _ _ key_proto_ne_host, GoMap.lookup_set_self]

theorem Director_lookup_forwarded_proto (od : Request → Request) (host : String)
    (r req : Request) :
    GoMap.lookup (Director od host r req).Header (CanonicalMIMEHeaderKey "X-Forwarded-Proto") =
      some [if r.TLS = true then "https" else "http"] := by
  unfold Director
  simp only [Header.Set]
  split_ifs <;>
    simp only [GoMap.lookup_set_ne _ _ key_realip_ne_proto, GoMap.lookup_set_self]

theorem values_Connection_Director (od : Request → Request) (host : String) (r req : Request) :
    Header.values (Director od host r req).Header "Connection" =
      Header.values (od req).Header "Connection" := by
  unfold Header.values
  rw [Director_lookup_other od host r req "Connection" (by decide) (by decide) (by decide)]

theorem connectionTokens_Director (od : Request → Request) (host : String) (r req : Request) :
    connectionTokens (Director od host r req).Header = connectionTokens (od req).Header := by
  unfold connectionTokens
  rw [values_Connection_Director]

theorem upgradeType_Director (od : Request → Request) (host : String) (r req : Request) :
    upgradeType (Director od host r req).Header = upgradeType (od req).Header := by
  unfold upgradeType Header.Get
  rw [values_Connection_Director,
    Director_lookup_other od host r req (CanonicalMIMEHeaderKey "Upgrade")
      (by decide) (by decide) (by decide)]

/-- What `ServeHTTP` does with the request of `handleRequest`. -/
theorem ReverseProxyServeHTTP_handle (lib : Stdlib) (t : URL) (r : Request) (e : Response) :
    ReverseProxyServeHTTP lib t (Director (rewriteRequestURL lib t) r.Host r) e r =
      if IsPrint (upgradeType r.Header) = true then Response.proxied t (forwardedRequest lib t r)
      else e := by
  unfold ReverseProxyServeHTTP forwardedRequest
  simp only [upgradeType_Director]
  rfl

/-- What `handleRequest` returns once the route of the host is known. -/
theorem handleRequest_of_lookup (lib : Stdlib) (p : HTTPProxy) (r : Request)
    (route : TunnelRoute) (hl : GoMap.lookup p.routes r.Host = some route)
    (hE : route.Enabled = true) :
    handleRequest lib p r =
      match lib.urlParse ("http://" ++ route.AgentIP ++ ":80") with
      | none =>
        (Response.httpError "Invalid target configuration" StatusInternalServerError, p)
      | some targetURL =>
        (if IsPrint (upgradeType r.Header) = true then
            Response.proxied targetURL (forwardedRequest lib targetURL r)
          else Response.httpError "Bad Gateway" StatusBadGateway, p) := by
  simp only [handleRequest, hl, hE, Bool.not_true, Bool.false_eq_true, if_false]
  cases lib.urlParse ("http://" ++ route.AgentIP ++ ":80") with
  | none => rfl
  | some targetURL => simp only [ReverseProxyServeHTTP_handle]

theorem handleRequest_proxied (lib : Stdlib) (p : HTTPProxy) (r : Request) (t : URL)
    (out : Request) (h : (handleRequest lib p r).1 = Response.proxied t out) :
    out = forwardedRequest lib t r := by
  cases hl : GoMap.lookup p.routes r.Host with
  | none => simp [handleRequest, hl] at h
  | some route =>
    cases hE : route.Enabled with
    | false => simp [handleRequest, hl, hE] at h
    | true =>
      rw [handleRequest_of_lookup lib p r route hl hE] at h
      cases hp : lib.urlParse ("http://" ++ route.AgentIP ++ ":80") with
      | none => simp [hp] at h
      | some targetURL =>
        simp only [hp] at h
        split_ifs at h
        simp only [Response.proxied.injEq] at h
        rw [← h.1, ← h.2]

theorem forwardedRequest_Host (lib : Stdlib) (t : URL) (r : Request) :
    (forwardedRequest lib t r).Host = r.Host :=
  Director_Host _ _ _ _

theorem forwardedRequest_URL (lib : Stdlib) (t : URL) (r : Request) :
    (forwardedRequest lib t r).URL.Scheme = t.Scheme ∧
    (forwardedRequest lib t r).URL.Host = t.Host := by
  have h : (forwardedRequest lib t r).URL = (rewriteRequestURL lib t r).URL :=
    Director_URL _ _ _ _
  rw [h]
  exact ⟨rfl, rfl⟩

/-- A header written by the `Director` reaches the transport unless the
Connection header of the inbound request names it. -/
theorem forwardedRequest_lookup (lib : Stdlib) (t : URL) (r : Request) (key : String)
    (hk : CanonicalMIMEHeaderKey key ∉ hopHeaders.map CanonicalMIMEHeaderKey)
    (h1 : CanonicalMIMEHeaderKey "Te" ≠ CanonicalMIMEHeaderKey key)
    (h2 : CanonicalMIMEHeaderKey "Connection" ≠ CanonicalMIMEHeaderKey key)
    (h3 : CanonicalMIMEHeaderKey "Upgrade" ≠ CanonicalMIMEHeaderKey key)
    (h4 : CanonicalMIMEHeaderKey "X-Forwarded-For" ≠ CanonicalMIMEHeaderKey key)
    (h5 : CanonicalMIMEHeaderKey "User-Agent" ≠ CanonicalMIMEHeaderKey key) :
    GoMap.lookup (forwardedRequest lib t r).Header (CanonicalMIMEHeaderKey key) =
      if namedInConnection r.Header key = true then none
      else GoMap.lookup (Director (rewriteRequestURL lib t) r.Host r r).Header
        (CanonicalMIMEHeaderKey key) := by
  have h : (forwardedRequest lib t r).Header =
      outgoingHeader lib r (Director (rewriteRequestURL lib t) r.Host r r).Header := rfl
  rw [h, lookup_outgoingHeader lib r _ _ hk h1 h2 h3 h4 h5, connectionTokens_Director]
  have hc : connectionTokens (rewriteRequestURL lib t r).Header = connectionTokens r.Header := rfl
  rw [hc]
  unfold namedInConnection
  by_cases hm : CanonicalMIMEHeaderKey key ∈
      (connectionTokens r.Header).map CanonicalMIMEHeaderKey
  · simp [hm]
  · simp [hm]

/-! ## The route table: C1, C7, C8 -/

/-- C1, as stated, fails on a list that names a domain more than once: after
`UpdateRoutes [routeAOld, routeAOff, routeA]` the lookup of `a.example` does not
return the backend address of the enabled entry `routeAOld`, and it is found
although the entry `routeAOff` of the list is disabled. -/
theorem C1_counterexample :
    (routeAOld ∈ [routeAOld, routeAOff, routeA] ∧ routeAOld.Enabled = true ∧
      (GoMap.lookup (UpdateRoutes (newProxy false) [routeAOld, routeAOff, routeA]).routes
          routeAOld.Domain).map TunnelRoute.AgentIP ≠ some routeAOld.AgentIP) ∧
    (routeAOff ∈ [routeAOld, routeAOff, routeA] ∧ routeAOff.Enabled = false ∧
      GoMap.lookup (UpdateRoutes (newProxy false) [routeAOld, routeAOff, routeA]).routes
          routeAOff.Domain ≠ none) := by
  decide

/-- C1, amended: after `UpdateRoutes p L` the lookup of a domain `d` returns the
backend address of the last enabled entry of `L` with domain `d`; it returns
not-found exactly when `L` has no enabled entry with domain `d`; and the new
table is the same whatever table `p` held before. -/
theorem C1_lookup_after_UpdateRoutes (p : HTTPProxy) (L : List TunnelRoute) (d : String) :
    (GoMap.lookup (UpdateRoutes p L).routes d).map TunnelRoute.AgentIP =
        ((enabledFor L d).getLast?).map TunnelRoute.AgentIP ∧
    (GoMap.lookup (UpdateRoutes p L).routes d = none ↔
        ∀ r ∈ L, r.Domain = d → r.Enabled = false) ∧
    (∀ q : HTTPProxy, (UpdateRoutes q L).routes = (UpdateRoutes p L).routes) := by
  refine ⟨by rw [lookup_UpdateRoutes], ?_, fun _ => rfl⟩
  rw [lookup_UpdateRoutes, List.getLast?_eq_none_iff]
  constructor
  · intro h r hr hd
    cases hE : r.Enabled with
    | false => rfl
    | true =>
      have : r ∈ enabledFor L d := mem_enabledFor.2 ⟨hr, hE, hd⟩
      rw [h] at this
      simp at this
  · intro h
    apply List.eq_nil_iff_forall_not_mem.2
    intro r hr
    obtain ⟨hL, hE, hd⟩ := mem_enabledFor.1 hr
    rw [h r hL hd] at hE
    exact Bool.noConfusion hE

/-- C1, amended, on the list `[routeAOld, routeAOff, routeA, routeB]` and a
prior table that held `c.example`: `a.example` resolves to the backend of
`routeA`, and `c.example` is gone. -/
theorem C1_lookup_after_UpdateRoutes_witness :
    (GoMap.lookup (UpdateRoutes (UpdateRoutes (newProxy false) [routeBadIP])
        [routeAOld, routeAOff, routeA, routeB]).routes "a.example").map TunnelRoute.AgentIP
      = some "10.1.0.1" ∧
    GoMap.lookup (UpdateRoutes (UpdateRoutes (newProxy false) [routeBadIP])
        [routeAOld, routeAOff, routeA, routeB]).routes "c.example" = none := by
  have h1 := C1_lookup_after_UpdateRoutes (UpdateRoutes (newProxy false) [routeBadIP])
    [routeAOld, routeAOff, routeA, routeB] "a.example"
  have h2 := C1_lookup_after_UpdateRoutes (UpdateRoutes (newProxy false) [routeBadIP])
    [routeAOld, routeAOff, routeA, routeB] "c.example"
  refine ⟨h1.1.trans (by decide), h2.2.1.2 (by decide)⟩

/-- C7: after `UpdateRoutes p L` no two entries of the table share a key, every
entry is stored under its own domain, so the table holds at most one route per
domain, and the route found for a domain is the last enabled entry of `L` with
that domain, with the ID and AgentIP of that entry. -/
theorem C7_one_route_per_domain_last_wins (p : HTTPProxy) (L : List TunnelRoute) :
    (GoMap.keys (UpdateRoutes p L).routes).Nodup ∧
    (∀ k r, (k, r) ∈ (UpdateRoutes p L).routes → r.Domain = k) ∧
    (∀ e1 ∈ (UpdateRoutes p L).routes, ∀ e2 ∈ (UpdateRoutes p L).routes,
        e1.2.Domain = e2.2.Domain → e1 = e2) ∧
    (∀ d, GoMap.lookup (UpdateRoutes p L).routes d = (enabledFor L d).getLast?) := by
  have hnd : (GoMap.keys (UpdateRoutes p L).routes).Nodup := nodup_keys_foldl_updateStep L
  have hkey : ∀ k r, (k, r) ∈ (UpdateRoutes p L).routes → r.Domain = k :=
    fun k r h => (entry_of_UpdateRoutes p L k r h).2.2
  refine ⟨hnd, hkey, ?_, fun d => lookup_UpdateRoutes p L d⟩
  rintro ⟨k1, r1⟩ h1 ⟨k2, r2⟩ h2 hd
  have e1 := hkey k1 r1 h1
  have e2 := hkey k2 r2 h2
  simp only at hd
  have hk : k1 = k2 := by rw [← e1, ← e2, hd]
  subst hk
  have l1 := GoMap.lookup_of_mem _ hnd k1 r1 h1
  have l2 := GoMap.lookup_of_mem _ hnd k1 r2 h2
  rw [l1] at l2
  rw [Option.some.inj l2]

/-- C7 on `[routeAOld, routeB, routeA]`: the table holds one route for
`a.example`, the later entry `routeA` with ID `r-a` and AgentIP `10.1.0.1`. -/
theorem C7_one_route_per_domain_last_wins_witness :
    GoMap.lookup (UpdateRoutes (newProxy false) [routeAOld, routeB, routeA]).routes "a.example"
      = some routeA ∧
    (UpdateRoutes (newProxy false) [routeAOld, routeB, routeA]).routes.length = 2 := by
  refine ⟨((C7_one_route_per_domain_last_wins (newProxy false)
    [routeAOld, routeB, routeA]).2.2.2 "a.example").trans (by decide), by decide⟩

/-- C8, as stated, fails: an enabled entry with an empty domain and an empty
backend address is installed by `UpdateRoutes`. -/
theorem C8_counterexample :
    routeBlank.Enabled = true ∧ routeBlank.Domain = "" ∧ routeBlank.AgentIP = "" ∧
    ("", routeBlank) ∈ (UpdateRoutes (newProxy false) [routeA, routeBlank]).routes ∧
    GoMap.lookup (UpdateRoutes (newProxy false) [routeA, routeBlank]).routes "" =
      some routeBlank := by
  decide

/-- C8, amended: `UpdateRoutes` is total and drops the disabled entries only.
Every route of the new table is an enabled entry of `L`, and the domain of every
enabled entry of `L`, be its domain or its backend address empty or not, is
bound in the new table to an enabled entry of `L` with that domain. -/
theorem C8_only_disabled_entries_dropped (p : HTTPProxy) (L : List TunnelRoute) :
    (∀ k r, (k, r) ∈ (UpdateRoutes p L).routes → r ∈ L ∧ r.Enabled = true) ∧
    (∀ e ∈ L, e.Enabled = true →
      ∃ route, GoMap.lookup (UpdateRoutes p L).routes e.Domain = some route ∧
        route ∈ L ∧ route.Enabled = true ∧ route.Domain = e.Domain) := by
  constructor
  · intro k r h
    exact ⟨(entry_of_UpdateRoutes p L k r h).1, (entry_of_UpdateRoutes p L k r h).2.1⟩
  · intro e he hE
    obtain ⟨route, hr⟩ := enabledFor_getLast?_isSome he hE
    refine ⟨route, ?_, mem_enabledFor.1 (List.mem_of_getLast?_eq_some hr)⟩
    rw [lookup_UpdateRoutes, hr]

/-- C8, amended, on `[routeAOff, routeBlank]`: the disabled entry is dropped and
the entry with the empty domain is found. -/
theorem C8_only_disabled_entries_dropped_witness :
    (∃ route, GoMap.lookup (UpdateRoutes (newProxy false) [routeAOff, routeBlank]).routes ""
        = some route ∧ route ∈ [routeAOff, routeBlank] ∧ route.Enabled = true ∧
        route.Domain = "") ∧
    GoMap.lookup (UpdateRoutes (newProxy false) [routeAOff, routeBlank]).routes "a.example"
      = none :=
  ⟨(C8_only_disabled_entries_dropped (newProxy false) [routeAOff, routeBlank]).2
      routeBlank (by decide) (by decide), by decide⟩

/-! ## The certificate policy: C2 -/

/-- C2: for every route table and every server name, `HostPolicy` returns no
error if and only if the table holds a route under that exact name and the route
is enabled; in every other case it returns the error
`acme: domain not configured: <name>`; and it leaves the proxy, its route table
included, as it was. -/
theorem C2_HostPolicy (p : HTTPProxy) (host : String) :
    ((HostPolicy p host).1 = Except.ok () ↔
        ∃ route, GoMap.lookup p.routes host = some route ∧ route.Enabled = true) ∧
    ((HostPolicy p host).1 ≠ Except.ok () →
        (HostPolicy p host).1 = Except.error ("acme: domain not configured: " ++ host)) ∧
    (HostPolicy p host).2 = p := by
  unfold HostPolicy
  cases hl : GoMap.lookup p.routes host with
  | none => simp
  | some route =>
    cases hE : route.Enabled with
    | false => simp [hE]
    | true => simp [hE]

/-- C2 on the table of `a.example` and `b.example`: a certificate for
`a.example` is allowed, one for `evil.example` is denied with the reason, and
the table is unchanged. -/
theorem C2_HostPolicy_witness :
    (HostPolicy (proxyAB true) "a.example").1 = Except.ok () ∧
    (HostPolicy (proxyAB true) "evil.example").1 =
      Except.error "acme: domain not configured: evil.example" ∧
    (HostPolicy (proxyAB true) "evil.example").2 = proxyAB true :=
  ⟨(C2_HostPolicy (proxyAB true) "a.example").1.2 ⟨routeA, by decide, by decide⟩,
   (C2_HostPolicy (proxyAB true) "evil.example").2.1 (by decide),
   (C2_HostPolicy (proxyAB true) "evil.example").2.2⟩


/-! ## Request dispatch: C3, C4, C5, C9 -/

/-- C3, as stated, fails: `c.example` is the domain of an enabled entry whose
backend address ends in a line feed, `url.Parse` rejects the target built from
it, and `handleRequest` answers 500 without forwarding anything. -/
theorem C3_counterexample :
    routeBadIP ∈ [routeA, routeBadIP] ∧ routeBadIP.Enabled = true ∧
    (handleRequest refStdlib (UpdateRoutes (newProxy false) [routeA, routeBadIP])
        (requestTo routeBadIP.Domain "/" "" [] false)).1 =
      Response.httpError "Invalid target configuration" 500 := by
  decide

/-- C3, amended: when the Host of a request is the domain of an enabled entry of
the list installed with `UpdateRoutes`, the table holds a route for that host,
namely the last enabled entry with that domain, and `handleRequest` answers
neither 404 nor 503. When `http://{AgentIP}:80` of that route parses as the URL
`t`, the request is handed to the transport with the scheme and the host of `t`
as its destination and with the Host and the method of the inbound request,
unless it asks to switch to a protocol whose name is not printable, which is
answered 502. When the target does not parse the answer is 500. -/
theorem C3_forwarded_to_own_backend (lib : Stdlib) (p : HTTPProxy) (L : List TunnelRoute)
    (r : Request) (e : TunnelRoute) (he : e ∈ L) (hE : e.Enabled = true)
    (hh : r.Host = e.Domain) :
    ∃ route, (enabledFor L r.Host).getLast? = some route ∧
      GoMap.lookup (UpdateRoutes p L).routes r.Host = some route ∧
      (∀ body, (handleRequest lib (UpdateRoutes p L) r).1 ≠
          Response.httpError body StatusNotFound) ∧
      (∀ body, (handleRequest lib (UpdateRoutes p L) r).1 ≠
          Response.httpError body StatusServiceUnavailable) ∧
      (∀ t, lib.urlParse ("http://" ++ route.AgentIP ++ ":80") = some t →
          IsPrint (upgradeType r.Header) = true →
          ∃ out, (handleRequest lib (UpdateRoutes p L) r).1 = Response.proxied t out ∧
            out.URL.Scheme = t.Scheme ∧ out.URL.Host = t.Host ∧
            out.Host = r.Host ∧ out.Method = r.Method) ∧
      (∀ t, lib.urlParse ("http://" ++ route.AgentIP ++ ":80") = some t →
          IsPrint (upgradeType r.Header) = false →
          (handleRequest lib (UpdateRoutes p L) r).1 =
            Response.httpError "Bad Gateway" StatusBadGateway) ∧
      (lib.urlParse ("http://" ++ route.AgentIP ++ ":80") = none →
          (handleRequest lib (UpdateRoutes p L) r).1 =
            Response.httpError "Invalid target configuration" StatusInternalServerError) := by
  obtain ⟨route, hr⟩ := enabledFor_getLast?_isSome he hE
  rw [← hh] at hr
  have hl : GoMap.lookup (UpdateRoutes p L).routes r.Host = some route := by
    rw [lookup_UpdateRoutes, hr]
  have hEn : route.Enabled = true := (mem_enabledFor.1 (List.mem_of_getLast?_eq_some hr)).2.1
  have hreq := handleRequest_of_lookup lib (UpdateRoutes p L) r route hl hEn
  refine ⟨route, hr, hl, ?_, ?_, ?_, ?_, ?_⟩
  · intro body
    rw [hreq]
    cases lib.urlParse ("http://" ++ route.AgentIP ++ ":80") with
    | none => simp [StatusNotFound, StatusInternalServerError]
    | some t =>
      simp only []
      split_ifs <;> simp [StatusNotFound, StatusBadGateway]
  · intro body
    rw [hreq]
    cases lib.urlParse ("http://" ++ route.AgentIP ++ ":80") with
    | none => simp [StatusServiceUnavailable, StatusInternalServerError]
    | some t =>
      simp only []
      split_ifs <;> simp [StatusServiceUnavailable, StatusBadGateway]
  · intro t ht hp
    refine ⟨forwardedRequest lib t r, ?_, (forwardedRequest_URL lib t r).1,
      (forwardedRequest_URL lib t r).2, forwardedRequest_Host lib t r, ?_⟩
    · rw [hreq, ht]
      simp only [hp, if_true]
    · exact Director_Method _ _ _ _
  · intro t ht hp
    rw [hreq, ht]
    simp [hp]
  · intro hn
    rw [hreq, hn]

/-- C3, amended, on `a.example -> 10.1.0.1` and `b.example -> 10.1.0.2`: a
request for `a.example` is sent to `10.1.0.1:80` and one for `b.example` to
`10.1.0.2:80`, each over `http` and with its own Host; a request for
`a.example` that asks to switch to a protocol named with a tab is answered 502. -/
theorem C3_forwarded_to_own_backend_witness :
    (∃ out, (handleRequest refStdlib (proxyAB false)
        (requestTo "a.example" "/x" "" [] false)).1 = Response.proxied targetA out ∧
      out.URL.Scheme = "http" ∧ out.URL.Host = "10.1.0.1:80" ∧
      out.Host = "a.example" ∧ out.Method = "GET") ∧
    (∃ out, (handleRequest refStdlib (proxyAB false)
        (requestTo "b.example" "/x" "" [] false)).1 = Response.proxied targetB out ∧
      out.URL.Scheme = "http" ∧ out.URL.Host = "10.1.0.2:80" ∧
      out.Host = "b.example" ∧ out.Method = "GET") ∧
    (handleRequest refStdlib (proxyAB false) badUpgradeRequest).1 =
      Response.httpError "Bad Gateway" 502 := by
  obtain ⟨rc, hc, _, _, _, _, hfc, _⟩ := C3_forwarded_to_own_backend refStdlib (newProxy false)
    [routeA, routeB] badUpgradeRequest routeA (by decide) (by decide) (by decide)
  have ec : rc = routeA := Option.some.inj (hc.symm.trans (by decide))
  subst ec
  obtain ⟨ra, ha, _, _, _, hfa, _⟩ := C3_forwarded_to_own_backend refStdlib (newProxy false)
    [routeA, routeB] (requestTo "a.example" "/x" "" [] false) routeA
    (by decide) (by decide) (by decide)
  obtain ⟨rb, hb, _, _, _, hfb, _⟩ := C3_forwarded_to_own_backend refStdlib (newProxy false)
    [routeA, routeB] (requestTo "b.example" "/x" "" [] false) routeB
    (by decide) (by decide) (by decide)
  have ea : ra = routeA := Option.some.inj (ha.symm.trans (by decide))
  have eb : rb = routeB := Option.some.inj (hb.symm.trans (by decide))
  subst ea
  subst eb
  exact ⟨hfa targetA (by decide) (by decide), hfb targetB (by decide) (by decide),
    hfc targetA (by decide) (by decide)⟩

/-- C4: when the Host of a request is not a key of the route table,
`handleRequest` answers 404, whatever the library would do with a target; it
forwards nothing and leaves the proxy, its route table included, as it was. -/
theorem C4_no_route_404 (lib : Stdlib) (p : HTTPProxy) (r : Request)
    (h : GoMap.lookup p.routes r.Host = none) :
    handleRequest lib p r =
        (Response.httpError "No tunnel configured for this domain" 404, p) ∧
    (∀ t out, (handleRequest lib p r).1 ≠ Response.proxied t out) := by
  have hreq : handleRequest lib p r =
      (Response.httpError "No tunnel configured for this domain" 404, p) := by
    simp [handleRequest, h, StatusNotFound]
  refine ⟨hreq, ?_⟩
  intro t out
  rw [hreq]
  simp

/-- C4 on the table of `a.example` and `b.example`: a request for
`c.example` is answered 404. -/
theorem C4_no_route_404_witness :
    GoMap.lookup (proxyAB false).routes "c.example" = none ∧
    handleRequest refStdlib (proxyAB false) (requestTo "c.example" "/" "" [] false) =
      (Response.httpError "No tunnel configured for this domain" 404, proxyAB false) :=
  ⟨by decide,
   (C4_no_route_404 refStdlib (proxyAB false) (requestTo "c.example" "/" "" [] false)
      (by decide)).1⟩

/-- C5, as stated, fails: a request for `a.example` whose Connection header
names X-Forwarded-Host, X-Forwarded-Proto and X-Real-IP is forwarded, and the
request that reaches the backend carries neither X-Forwarded-Host nor
X-Forwarded-Proto, the reverse proxy having removed them as hop-by-hop after
the `Director` wrote them. -/
theorem C5_counterexample :
    (handleRequest refStdlib (proxyAB false) strippingRequest).1 =
      Response.proxied targetA strippedForward ∧
    Header.Get strippedForward.Header "X-Forwarded-Host" ≠ strippingRequest.Host ∧
    Header.Get strippedForward.Header "X-Forwarded-Proto" ≠ "http" ∧
    GoMap.lookup strippedForward.Header (CanonicalMIMEHeaderKey "X-Forwarded-Host") = none ∧
    GoMap.lookup strippedForward.Header (CanonicalMIMEHeaderKey "X-Forwarded-Proto") = none := by
  decide

/-- C5, amended: in every request that `handleRequest` forwards the Host is the
Host of the inbound request. The header X-Forwarded-Host has that same value and
the header X-Forwarded-Proto is `https` when the inbound connection was TLS and
`http` otherwise, whatever the inbound request carried in those headers,
provided the Connection header of the inbound request does not name the header;
a header that it names is absent from the forwarded request. -/
theorem C5_forwarded_host_and_proto_unless_hop_by_hop (lib : Stdlib) (p : HTTPProxy)
    (r : Request) (t : URL) (out : Request)
    (h : (handleRequest lib p r).1 = Response.proxied t out) :
    out.Host = r.Host ∧
    (namedInConnection r.Header "X-Forwarded-Host" = false →
      Header.Get out.Header "X-Forwarded-Host" = r.Host) ∧
    (namedInConnection r.Header "X-Forwarded-Host" = true →
      GoMap.lookup out.Header (CanonicalMIMEHeaderKey "X-Forwarded-Host") = none) ∧
    (namedInConnection r.Header "X-Forwarded-Proto" = false →
      Header.Get out.Header "X-Forwarded-Proto" =
        (if r.TLS = true then "https" else "http")) ∧
    (namedInConnection r.Header "X-Forwarded-Proto" = true →
      GoMap.lookup out.Header (CanonicalMIMEHeaderKey "X-Forwarded-Proto") = none) := by
  rw [handleRequest_proxied lib p r t out h]
  have hH := forwardedRequest_lookup lib t r "X-Forwarded-Host"
    (by decide) (by decide) (by decide) (by decide) (by decide) (by decide)
  have hP := forwardedRequest_lookup lib t r "X-Forwarded-Proto"
    (by decide) (by decide) (by decide) (by decide) (by decide) (by decide)
  rw [Director_lookup_forwarded_host] at hH
  rw [Director_lookup_forwarded_proto] at hP
  refine ⟨forwardedRequest_Host lib t r, ?_, ?_, ?_, ?_⟩
  · intro hn
    rw [hn] at hH
    simp only [Header.Get, hH, Bool.false_eq_true, if_false]
  · intro hn
    rw [hn] at hH
    simpa using hH
  · intro hn
    rw [hn] at hP
    simp only [Header.Get, hP, Bool.false_eq_true, if_false]
  · intro hn
    rw [hn] at hP
    simpa using hP

/-- C5, amended, on two plain-HTTP requests for `a.example`: one arrives with
X-Forwarded-Proto `https` and X-Forwarded-Host `b.example` and is forwarded
with `http` and `a.example`; the other names X-Forwarded-Proto in its
Connection header and is forwarded without that header. -/
theorem C5_forwarded_host_and_proto_unless_hop_by_hop_witness :
    (handleRequest refStdlib (proxyAB false) spoofedRequest).1 =
      Response.proxied targetA (forwardedRequest refStdlib targetA spoofedRequest) ∧
    (forwardedRequest refStdlib targetA spoofedRequest).Host = "a.example" ∧
    Header.Get (forwardedRequest refStdlib targetA spoofedRequest).Header
      "X-Forwarded-Host" = "a.example" ∧
    Header.Get (forwardedRequest refStdlib targetA spoofedRequest).Header
      "X-Forwarded-Proto" = "http" ∧
    GoMap.lookup (forwardedRequest refStdlib targetA strippingRequest).Header
      (CanonicalMIMEHeaderKey "X-Forwarded-Proto") = none :=
  ⟨by decide,
   (C5_forwarded_host_and_proto_unless_hop_by_hop refStdlib (proxyAB false) spoofedRequest
      targetA _ (by decide)).1,
   (C5_forwarded_host_and_proto_unless_hop_by_hop refStdlib (proxyAB false) spoofedRequest
      targetA _ (by decide)).2.1 (by decide),
   (C5_forwarded_host_and_proto_unless_hop_by_hop refStdlib (proxyAB false) spoofedRequest
      targetA _ (by decide)).2.2.2.1 (by decide),
   (C5_forwarded_host_and_proto_unless_hop_by_hop refStdlib (proxyAB false) strippingRequest
      targetA (forwardedRequest refStdlib targetA strippingRequest)
      (by decide)).2.2.2.2 (by decide)⟩

/-- C9 fails on the code: for a request for `a.example` that carries no
X-Real-IP header and comes from `192.0.2.1:54321`, the forwarded request has
X-Real-IP `192.0.2.1:54321`, the whole RemoteAddr with its port, and not the
client IP `192.0.2.1`. -/
theorem C9_real_ip_is_whole_remote_addr :
    ∃ t out,
      (handleRequest refStdlib (proxyAB false)
        (requestTo "a.example" "/" "" [] false)).1 = Response.proxied t out ∧
      (requestTo "a.example" "/" "" [] false).RemoteAddr = "192.0.2.1:54321" ∧
      Header.Get out.Header "X-Real-IP" = "192.0.2.1:54321" ∧
      Header.Get out.Header "X-Real-IP" ≠ "192.0.2.1" :=
  ⟨targetA, forwardedRequest refStdlib targetA (requestTo "a.example" "/" "" [] false),
   by decide, by decide, by decide, by decide⟩

/-! ## The HTTP listener: C6 -/

/-- Where the redirect to HTTPS does happen: with ACME enabled and its manager
present, a request other than `*` and CONNECT whose path is in canonical form,
is not the challenge subtree without its slash and does not start with the
challenge pattern is answered by a 301 redirect to `https://` followed by the
host, the path and, when it is not empty, `?` and the raw query. -/
theorem httpHandler_redirects_canonical (lib : Stdlib) (p : HTTPProxy)
    (mainHandler : HTTPProxy → Request → Response × HTTPProxy) (r : Request)
    (hEn : p.acmeConfig.Enabled = true) (hMgr : p.acmeManager = true)
    (hStar : r.RequestURI ≠ "*") (hMethod : r.Method ≠ "CONNECT")
    (hClean : cleanPath r.URL.Path = r.URL.Path)
    (hTree : shouldRedirect (httpPatterns p) (stripHostPort lib r.Host) r.URL.Path = false)
    (hRoot : HasPrefix r.URL.Path "/" = true)
    (hPath : HasPrefix r.URL.Path acmeChallengePath = false) :
    httpHandler lib p mainHandler r =
      (Response.redirect
        (if r.URL.RawQuery = "" then "https://" ++ r.Host ++ r.URL.Path
         else "https://" ++ r.Host ++ r.URL.Path ++ "?" ++ r.URL.RawQuery) 301, p) := by
  unfold httpHandler ServeMux httpDispatch redirectToHTTPS
  by_cases hq : r.URL.RawQuery = "" <;>
    simp [hEn, hMgr, hStar, hMethod, hClean, hTree, hRoot, hPath, hq, StatusMovedPermanently]

/-- C6 fails on the code: with ACME enabled and its manager present, the plain
HTTP request `GET //docs` for `a.example`, whose path does not start with the
challenge pattern, is answered by the mux itself with a 301 redirect to the
path `/docs` on the same scheme and host, for every library and every
`mainHandler`; the handler of `/` does not run and the answer is not the 301
redirect to `https://a.example//docs`. -/
theorem C6_noncanonical_path_redirected_by_mux (lib : Stdlib)
    (mainHandler : HTTPProxy → Request → Response × HTTPProxy) :
    HasPrefix (requestTo "a.example" "//docs" "" [] false).URL.Path acmeChallengePath = false ∧
    httpHandler lib (proxyAB true) mainHandler (requestTo "a.example" "//docs" "" [] false) =
      (Response.redirectURL
        { Scheme := "", Host := "", Path := "/docs", RawPath := "", RawQuery := "" } 301,
       proxyAB true) ∧
    (httpHandler lib (proxyAB true) mainHandler
        (requestTo "a.example" "//docs" "" [] false)).1 ≠
      Response.redirect "https://a.example//docs" 301 := by
  have h : httpHandler lib (proxyAB true) mainHandler
      (requestTo "a.example" "//docs" "" [] false) =
      (Response.redirectURL
        { Scheme := "", Host := "", Path := "/docs", RawPath := "", RawQuery := "" } 301,
       proxyAB true) := by
    rfl
  refine ⟨by decide, h, ?_⟩
  rw [h]
  simp

end Kakuremichi
